import Mathlib

/-!
Verification of the RvFun RISC-V functional simulator against its
natural-language specification.

The definitions below are a shallow embedding of the C++ sources:

* `SparseMem` embeds `src/sparse_mem.cpp` (block list, `addBlock`,
  `readMem`, `writeMem`);
* `SimpleArchState` embeds `src/simple_arch_state.hpp/.cpp` (integer
  register file with the x0 rule, PC, sparse CSR map with the
  `fflags`/`frm`/`fcsr` parent-child views, memory delegation);
* the `*Exec` functions embed the `execute` methods of the instruction
  classes in `src/arch_decode.cpp` that the claims are about
  (`ImulDiv`, `OpRegReg`, `MulDivW`, `AmoOp`, `Jalr`);
* `decode16` / `decode32` embed the two decoder entry points of
  `src/arch_decode.cpp` at the level of "which instruction object is
  constructed with which constructor arguments" (`InstDesc`);
* `hostReadlinkat` embeds `HostSystem::readlinkat` of
  `src/host_system.cpp`.

Machine integers are modelled as `Nat` with explicit reduction modulo
`2^64` (or `2^32`, `2^8`) exactly where the C++ unsigned types wrap;
signed 64-bit values are interpreted through `toS64` / `ofS64`.
-/

namespace RvFun

/-- Modulus of the 64-bit unsigned integers used throughout the simulator. -/
def two64 : Nat := 2 ^ 64

/-- Modulus of the 32-bit unsigned integers (block sizes, loop counters). -/
def two32 : Nat := 2 ^ 32

/-- Value of a `uint64_t` bit pattern reinterpreted as `int64_t`
(two's complement). -/
def toS64 (n : Nat) : Int :=
  if n < 2 ^ 63 then (n : Int) else (n : Int) - (two64 : Int)

/-- Bit pattern of an `int64_t` value stored back into a `uint64_t`
(conversion modulo `2^64`, as C++ defines for unsigned targets). -/
def ofS64 (i : Int) : Nat :=
  (i % (two64 : Int)).toNat

/-- Value of a `uint32_t` bit pattern reinterpreted as `int32_t`. -/
def toS32 (n : Nat) : Int :=
  if n % two32 < 2 ^ 31 then ((n % two32 : Nat) : Int)
  else ((n % two32 : Nat) : Int) - (two32 : Int)

/-- Bitwise complement of a 64-bit value, as in `~uint64_t(x)`.
For `x < 2^64` this subtraction equals flipping every one of the 64 bits. -/
def comp64 (x : Nat) : Nat :=
  two64 - 1 - x % two64

/-- Unsigned 64-bit subtraction `a - b` (wraps modulo `2^64`). -/
def sub64 (a b : Nat) : Nat :=
  (a % two64 + two64 - b % two64) % two64

/-!
Sparse memory, from `src/sparse_mem.cpp` (the revision whose `addBlock`
merges on `block_end == va` and copies the supplied data, i.e. the
second version embedded in the file).  A block buffer is a list of byte
values; every write into a buffer reduces the stored value modulo 256,
mirroring the `uint8_t` cells of `MemBlock::mem`.  The C++ grow path
runs its copy loop with the *total* size as bound, so the tail of the
loop writes past the end of the `realloc`ed buffer (and reads past the
end of the caller's data); those accesses touch storage outside the
block, so in the embedding an out-of-range `List.set` is a no-op, which
is exactly the effect visible through `readMem`/`writeMem`.
-/

/-- Allocation block of the sparse memory: base virtual address,
size in bytes, and the byte buffer (`struct SparseMem::MemBlock`). -/
structure MemBlock where
  va : Nat
  sz : Nat
  mem : List Nat
  deriving Repr, DecidableEq

/-- Fresh block construction (`MemBlock::MemBlock`): copy `sz` bytes
from `data` when present (`memcpy`), else zero-fill (`calloc`). -/
def MemBlock.ofData (va sz : Nat) (data : Option (List Nat)) : MemBlock :=
  { va := va
    sz := sz
    mem := match data with
      | some d => (List.range sz).map (fun i => d.getD i 0 % 256)
      | none => List.replicate sz 0 }

/-- Sparse guest memory: an ordered collection of blocks
(`class SparseMem`). -/
structure SparseMem where
  blocks : List MemBlock
  deriving Repr, DecidableEq

/-- Grow-path copy loop of `SparseMem::addBlock`:
`for (i = 0; i < sz; ++i) b->mem[va - b->va + i] = bdata[i]` with `sz`
already updated to the total size.  Out-of-range writes fall outside the
block buffer and are dropped (`List.set` is the identity there). -/
def growCopy (buf : List Nat) (offset : Nat) (d : List Nat) : Nat → List Nat
  | 0 => buf
  | n + 1 => (growCopy buf offset d n).set (offset + n) (d.getD n 0 % 256)

/-- Body of `SparseMem::addBlock`: scan for a block with
`b->va + b->sz == va` and grow it, otherwise append a fresh block. -/
def addBlockGo (va sz : Nat) (data : Option (List Nat)) :
    List MemBlock → List MemBlock
  | [] => [MemBlock.ofData va sz data]
  | b :: bs =>
    let blockEnd := (b.va + b.sz) % two64
    if blockEnd = va then
      -- sz += b->sz (uint32_t arithmetic)
      let szTotal := (sz + b.sz) % two32
      -- realloc to szTotal, then zero the bytes from b->sz up to szTotal
      let grown := b.mem.take szTotal ++ List.replicate (szTotal - b.sz) 0
      let filled := match data with
        | some d => growCopy grown (sub64 va b.va) d szTotal
        | none => grown
      { b with sz := szTotal, mem := filled } :: bs
    else
      b :: addBlockGo va sz data bs

/-- Embedding of `SparseMem::addBlock(va, sz, data)`. -/
def SparseMem.addBlock (m : SparseMem) (va sz : Nat)
    (data : Option (List Nat)) : SparseMem :=
  { blocks := addBlockGo va sz data m.blocks }

/-- Little-endian value of a byte list, as `memcpy(&ret, ..., sz)`
produces on the little-endian host. -/
def leVal : List Nat → Nat
  | [] => 0
  | x :: xs => x + 256 * leVal xs

/-- Bytes `[va, va+sz)` of a block, starting at offset `va - b->va`. -/
def MemBlock.bytesAt (b : MemBlock) (va sz : Nat) : List Nat :=
  (List.range sz).map (fun i => b.mem.getD (sub64 va b.va + i) 0)

/-- Body of `SparseMem::readMem`: return the little-endian value from
the first block that fully contains the access; a block that contains
only the start logs a cross-block diagnostic and the scan continues;
outside any block the result is 0. -/
def readMemGo (va sz : Nat) : List MemBlock → Nat
  | [] => 0
  | b :: bs =>
    let blockEnd := (b.va + b.sz) % two64
    if b.va ≤ va ∧ va < blockEnd ∧ (va + sz) % two64 ≤ blockEnd then
      leVal (b.bytesAt va sz)
    else
      readMemGo va sz bs

/-- Embedding of `SparseMem::readMem(va, sz)`. -/
def SparseMem.readMem (m : SparseMem) (va sz : Nat) : Nat :=
  readMemGo va sz m.blocks

/-- Store the low `sz` bytes of `val` into buffer `buf` at `offset`,
little-endian (`memcpy(b->mem + offset, &val, sz)`). -/
def storeBytes (buf : List Nat) (offset val : Nat) : Nat → List Nat
  | 0 => buf
  | n + 1 => (storeBytes buf offset val n).set (offset + n) (val / 256 ^ n % 256)

/-- Body of `SparseMem::writeMem`: update the first block that fully
contains the access; a write outside any block is dropped. -/
def writeMemGo (va sz val : Nat) : List MemBlock → List MemBlock
  | [] => []
  | b :: bs =>
    let blockEnd := (b.va + b.sz) % two64
    if b.va ≤ va ∧ va < blockEnd ∧ (va + sz) % two64 ≤ blockEnd then
      { b with mem := storeBytes b.mem (sub64 va b.va) val sz } :: bs
    else
      b :: writeMemGo va sz val bs

/-- Embedding of `SparseMem::writeMem(va, sz, val)`. -/
def SparseMem.writeMem (m : SparseMem) (va sz val : Nat) : SparseMem :=
  { blocks := writeMemGo va sz val m.blocks }

/-!
Architectural state, from `src/simple_arch_state.hpp` and the CSR code
of `src/simple_arch_state.cpp`.  The integer register file is a map
from register number to 64-bit value; the CSR file is the partial map
backing `std::map<uint16_t, uint64_t> cregs_` (`none` models an absent
key).  Floating-point state is not needed by any claim.
-/

/-- Embedding of `SimpleArchState`: PC, integer register file, sparse
CSR map, and the attached sparse memory. -/
structure SimpleArchState where
  pc : Nat
  ireg : Nat → Nat
  cregs : Nat → Option Nat
  mem : SparseMem

/-- Embedding of `SimpleArchState::getReg`: register 0 reads as zero. -/
def getReg (s : SimpleArchState) (num : Nat) : Nat :=
  if num = 0 then 0 else s.ireg num

/-- Embedding of `SimpleArchState::setReg`: a write to register 0 is
silently discarded. -/
def setReg (s : SimpleArchState) (num val : Nat) : SimpleArchState :=
  if num = 0 then s
  else { s with ireg := fun n => if n = num then val else s.ireg n }

/-- Embedding of `SimpleArchState::incPc` (`pc_ += delta`, 64-bit wrap;
`delta` is an `int64_t`). -/
def incPc (s : SimpleArchState) (delta : Int) : SimpleArchState :=
  { s with pc := ofS64 ((s.pc : Int) + delta) }

/-- Embedding of `SimpleArchState::setPc`. -/
def setPc (s : SimpleArchState) (pc : Nat) : SimpleArchState :=
  { s with pc := pc }

/-- Embedding of `SimpleArchState::readMem` (delegates to the memory). -/
def readMemS (s : SimpleArchState) (va sz : Nat) : Nat :=
  s.mem.readMem va sz

/-- Embedding of `SimpleArchState::writeMem` (delegates to the memory). -/
def writeMemS (s : SimpleArchState) (va sz val : Nat) : SimpleArchState :=
  { s with mem := s.mem.writeMem va sz val }

/-- CSR numbers of the float-control views (`FFLAGS`, `FRM`, `FCSR`). -/
def FFLAGS : Nat := 1

/-- CSR number of the rounding-mode view. -/
def FRM : Nat := 2

/-- CSR number of the parent float-control register. -/
def FCSR : Nat := 3

/-- Embedding of `SimpleArchState::parentCsr`: `fflags` and `frm` remap
to `fcsr`. -/
def parentCsr (csr : Nat) : Nat :=
  if csr = FFLAGS ∨ csr = FRM then FCSR else csr

/-- Embedding of `SimpleArchState::getCr`: absent CSRs read 0; `frm`
reads bits [7:5] of the stored `fcsr`, `fflags` bits [4:0]. -/
def getCr (s : SimpleArchState) (csr : Nat) : Nat :=
  match s.cregs (parentCsr csr) with
  | none => 0
  | some v =>
    if csr = FRM then (v >>> 5) &&& 7
    else if csr = FFLAGS then v &&& 0x1f
    else v

/-- Embedding of `SimpleArchState::setCr`: the sub-field views perform a
read-modify-write of the parent `fcsr` value (`val |= cur & mask` when
the parent entry exists, with `mask` the complement of the field); other
CSRs are stored whole — their `mask` expression `~uint64_t(-1)` is 0,
but `partial` stays false there, so that mask is never applied.
`std::map::insert` and assignment to `i->second` both leave the map
with `actual` bound to `val`. -/
def setCr (s : SimpleArchState) (csr val0 : Nat) : SimpleArchState :=
  let actual := parentCsr csr
  let val :=
    if csr = FRM then
      match s.cregs actual with
      | some cur => ((val0 &&& 7) <<< 5) ||| (cur &&& comp64 0xe0)
      | none => (val0 &&& 7) <<< 5
    else if csr = FFLAGS then
      match s.cregs actual with
      | some cur => (val0 &&& 0x1f) ||| (cur &&& comp64 0x1f)
      | none => val0 &&& 0x1f
    else val0
  { s with cregs := fun k => if k = actual then some val else s.cregs k }

/-!
Instruction semantics, from the `execute` methods in
`src/arch_decode.cpp`.  Register numbers are the 5-bit fields the
decoder extracts; the embedded operations keep all stored register
values below `2^64`, and the theorems assume that bound on the starting
state where the semantics depends on it.
-/

/-- Embedding of `ImulDiv::execute`.  The multiply-high cases reproduce
what the C++ actually computes: the product is formed at 64 bits
(wrapping; the `int64_t * int64_t` overflow of the MULH case is mapped
to the two's-complement wraparound the compiled code produces) and only
then widened to 128 bits, so `tmp >> 64` extracts the widening fill,
never the true high half.  The divide cases have no divisor guard in
the source: a zero divisor, or the `INT64_MIN / -1` overflow of the
signed forms, raises the host's division trap, modelled as `none`. -/
def imulDivExec (op r2 r1 rd : Nat) (s : SimpleArchState) :
    Option SimpleArchState :=
  let vr1 := getReg s r1
  let vr2 := getReg s r2
  let val? : Option Nat :=
    match op with
    | 0 => some ((vr1 * vr2) % two64)
    | 1 => some (ofS64 (Int.fdiv (toS64 ((vr1 * vr2) % two64)) (2 ^ 64)))
    | 2 => some (((vr1 * vr2) % two64) >>> 64)
    | 3 => some (((ofS64 (toS64 vr1) * vr2) % two64) >>> 64)
    | 4 =>
      if vr2 = 0 ∨ (toS64 vr1 = -(2 ^ 63) ∧ toS64 vr2 = -1) then none
      else some (ofS64 (Int.tdiv (toS64 vr1) (toS64 vr2)))
    | 5 => if vr2 = 0 then none else some (vr1 / vr2)
    | 6 =>
      if vr2 = 0 ∨ (toS64 vr1 = -(2 ^ 63) ∧ toS64 vr2 = -1) then none
      else some (ofS64 (Int.tmod (toS64 vr1) (toS64 vr2)))
    | 7 => if vr2 = 0 then none else some (vr1 % vr2)
    | _ => some 0
  val?.map (fun val => incPc (setReg s rd val) 4)

/-- Embedding of `OpRegReg::execute` (ADD/SUB, SLL, SLT, SLTU, XOR,
SRL/SRA, OR, AND).  The shifts compare the full 64-bit rs2 value with
63 — there is no masking to the low six bits — and the arithmetic right
shift of a negative `int64_t` is the sign-filling shift gcc produces,
i.e. flooring division by the power of two. -/
def opRegRegExec (op : Nat) (op30 : Bool) (r2 r1 rd : Nat)
    (s : SimpleArchState) : SimpleArchState :=
  let vr1 := getReg s r1
  let vr2 := getReg s r2
  let vd :=
    match op with
    | 0 => if op30 then sub64 vr1 vr2 else (vr1 + vr2) % two64
    | 1 => if vr2 < 63 then (vr1 <<< vr2) % two64 else 0
    | 2 => if toS64 vr1 < toS64 vr2 then 1 else 0
    | 3 => if vr1 < vr2 then 1 else 0
    | 4 => vr1 ^^^ vr2
    | 5 =>
      if op30 then
        if vr2 < 63 then ofS64 (Int.fdiv (toS64 vr1) (2 ^ vr2))
        else if toS64 vr1 < 0 then ofS64 (-1) else 0
      else
        if vr2 < 63 then vr1 >>> vr2 else 0
    | 6 => vr1 ||| vr2
    | 7 => vr1 &&& vr2
    | _ => 0
  incPc (setReg s rd vd) 4

/-- Embedding of `MulDivW::execute`.  The operands are truncated to
`uint32_t` on read; every divide case is guarded by `v2 != 0` (the
result variable keeps its initial 0 then), but the signed forms still
hit the host's `INT32_MIN / -1` trap, modelled as `none`; the final
write sign-extends the 32-bit result. -/
def mulDivWExec (op r2 r1 rd : Nat) (s : SimpleArchState) :
    Option SimpleArchState :=
  let v2 := getReg s r2 % two32
  let v1 := getReg s r1 % two32
  let val? : Option Int :=
    match op with
    | 0 => some (toS32 ((v1 * v2) % two32))
    | 4 =>
      if v2 ≠ 0 then
        if toS32 v1 = -(2 ^ 31) ∧ toS32 v2 = -1 then none
        else some (Int.tdiv (toS32 v1) (toS32 v2))
      else some 0
    | 5 => if v2 ≠ 0 then some (toS32 (v1 / v2)) else some 0
    | 6 =>
      if v2 ≠ 0 then
        if toS32 v1 = -(2 ^ 31) ∧ toS32 v2 = -1 then none
        else some (Int.tmod (toS32 v1) (toS32 v2))
      else some 0
    | 7 => if v2 ≠ 0 then some (toS32 (v1 % v2)) else some 0
    | _ => some 0
  val?.map (fun val => incPc (setReg s rd (ofS64 val)) 4)

/-- Embedding of `AmoOp::execute`.  The loaded value goes to `rd`
exactly as `readMem` returned it — the word forms do not sign-extend
(the source carries a TODO for that) — and `op(tmp, rs2)` is computed
at 64 bits and stored back with the operation size. -/
def amoExec (o31_27 : Nat) (dword : Bool) (r2 r1 rd : Nat)
    (s : SimpleArchState) : SimpleArchState :=
  let ea := getReg s r1
  let vr2 := getReg s r2
  let sz := if dword then 8 else 4
  let init_val := if o31_27 = 1 ∧ rd = 0 then 0 else readMemS s ea sz
  let val :=
    match o31_27 with
    | 0 => (init_val + vr2) % two64
    | 1 => vr2
    | 4 => init_val ^^^ vr2
    | 8 => init_val ||| vr2
    | 12 => init_val &&& vr2
    | 16 => ofS64 (min (toS64 init_val) (toS64 vr2))
    | 20 => ofS64 (max (toS64 init_val) (toS64 vr2))
    | 24 => min init_val vr2
    | 28 => max init_val vr2
    | _ => 0
  incPc (writeMemS (setReg s rd init_val) ea sz val) 4

/-- Embedding of `Jalr::execute`: the link value `pc + 4` is written to
`rd` first, then the jump base is read from `r1` — so when the two
registers coincide the target is formed from the fresh link value — and
the bottom bit of the target is cleared by the decrement. -/
def jalrExec (imm : Int) (r1 rd : Nat) (s : SimpleArchState) :
    SimpleArchState :=
  let pc := s.pc
  let s1 := setReg s rd ((pc + 4) % two64)
  let newPc := ofS64 ((getReg s1 r1 : Int) + imm)
  let newPc2 := if newPc % 2 = 1 then newPc - 1 else newPc
  setPc s1 newPc2

/-!
Claim C5 — the x0 hardwired-zero rule of `SimpleArchState`.
-/

/-- C5: integer register 0 is hardwired to zero: after `set_reg(0, v)`
the read of register 0 yields 0, and every register reads exactly what
it read before the discarded write (`SimpleArchState::setReg` ignores
writes to register 0, `getReg` forces register 0 to 0). -/
theorem c5_x0_hardwired_zero (s : SimpleArchState) (v : Nat) :
    getReg (setReg s 0 v) 0 = 0 ∧
    ∀ r : Nat, getReg (setReg s 0 v) r = getReg s r := by
  refine ⟨rfl, fun r => ?_⟩
  simp [setReg, getReg]

/-!
Claim C6 — `fflags` writes are read-modify-writes of `fcsr` that leave
the `frm` field untouched.
-/

/-- Mask value used by the `fflags` read-modify-write: the complement of
`0x1f` is the low-59-bit all-ones pattern shifted up by five. -/
theorem comp64_31_eq : comp64 0x1f = (2 ^ 59 - 1) <<< 5 := by
  norm_num [comp64, two64, Nat.shiftLeft_eq]

/-- Bits of the five-bit field mask. -/
theorem testBit_31 (i : Nat) : Nat.testBit 0x1f i = decide (i < 5) := by
  simpa using Nat.testBit_two_pow_sub_one 5 i

/-- Bits of the three-bit field mask. -/
theorem testBit_7 (i : Nat) : Nat.testBit 7 i = decide (i < 3) := by
  simpa using Nat.testBit_two_pow_sub_one 3 i

/-- Bits of the complemented five-bit mask: ones exactly at positions
five through 63. -/
theorem testBit_comp31 (i : Nat) :
    Nat.testBit (comp64 0x1f) i = (decide (5 ≤ i) && decide (i < 64)) := by
  rw [comp64_31_eq]
  simp only [Nat.testBit_shiftLeft, Nat.testBit_two_pow_sub_one, ge_iff_le]
  by_cases h5 : 5 ≤ i
  · by_cases h64 : i < 64 <;>
      [skip; skip] <;> simp [h5, h64] <;> omega
  · simp [h5]

/-- Bit-level core of the `fflags` write: reading the low five bits back
from the merged `fcsr` value recovers the written field. -/
theorem fflags_readback (v cur : Nat) :
    ((v &&& 0x1f) ||| (cur &&& comp64 0x1f)) &&& 0x1f = v &&& 0x1f := by
  apply Nat.eq_of_testBit_eq
  intro i
  simp only [Nat.testBit_and, Nat.testBit_or, testBit_31, testBit_comp31]
  by_cases h5 : i < 5
  · have h5' : ¬ 5 ≤ i := by omega
    simp [h5, h5']
  · simp [h5]

/-- Bit-level core of cross-field independence: the merged `fcsr` value
keeps bits [7:5] of the previous value. -/
theorem frm_unchanged (v cur : Nat) :
    ((((v &&& 0x1f) ||| (cur &&& comp64 0x1f)) >>> 5) &&& 7) =
      ((cur >>> 5) &&& 7) := by
  apply Nat.eq_of_testBit_eq
  intro i
  simp only [Nat.testBit_and, Nat.testBit_or, Nat.testBit_shiftRight,
    testBit_31, testBit_7, testBit_comp31]
  by_cases h3 : i < 3
  · have hlt : ¬ 5 + i < 5 := by omega
    have hle : 5 ≤ 5 + i := by omega
    have h64 : 5 + i < 64 := by omega
    simp [h3, hlt, hle, h64]
  · simp [h3]

/-- C6: writing `fflags` is a read-modify-write of the low five bits of
the stored `fcsr`: afterwards `fflags` reads back `v & 0x1f` and `frm`
reads the same value as before the write, also when no `fcsr` entry
existed (`SimpleArchState::setCr`/`getCr`). -/
theorem c6_fflags_rmw (s : SimpleArchState) (v : Nat) :
    getCr (setCr s FFLAGS v) FFLAGS = v &&& 0x1f ∧
    getCr (setCr s FFLAGS v) FRM = getCr s FRM := by
  cases h : s.cregs 3 with
  | none =>
    constructor
    · simp only [setCr, getCr, parentCsr, FFLAGS, FRM, FCSR]
      norm_num [h, Nat.and_assoc]
    · have hlt : v &&& 0x1f < 2 ^ 5 := Nat.and_lt_two_pow v (by norm_num)
      have hz : (v &&& 0x1f) >>> 5 = 0 := by
        rw [Nat.shiftRight_eq_div_pow]
        exact Nat.div_eq_of_lt hlt
      simp only [setCr, getCr, parentCsr, FFLAGS, FRM, FCSR]
      norm_num [h, hz]
  | some cur =>
    constructor
    · have := fflags_readback v cur
      simp only [setCr, getCr, parentCsr, FFLAGS, FRM, FCSR]
      norm_num [h, this]
    · have := frm_unchanged v cur
      simp only [setCr, getCr, parentCsr, FFLAGS, FRM, FCSR]
      norm_num [h, this]

/-!
Helper lemmas about the register file and concrete evaluation states.
-/

/-- Reading back a register just written (nonzero register number). -/
theorem getReg_setReg_self (s : SimpleArchState) (rd v : Nat) (h : rd ≠ 0) :
    getReg (setReg s rd v) rd = v := by
  simp [getReg, setReg, h]

/-- Writing one register leaves every other register unchanged. -/
theorem getReg_setReg_other (s : SimpleArchState) (rd v r : Nat)
    (h : r ≠ rd) : getReg (setReg s rd v) r = getReg s r := by
  unfold getReg setReg
  by_cases hrd : rd = 0 <;> simp [hrd, h]

/-- Advancing the PC does not touch the register file. -/
theorem getReg_incPc (s : SimpleArchState) (d : Int) (r : Nat) :
    getReg (incPc s d) r = getReg s r := rfl

/-- Signed view of a 64-bit pattern equals the most negative value
exactly for the pattern `2^63`. -/
theorem toS64_eq_neg_min (x : Nat) (hx : x < two64) :
    toS64 x = -(2 ^ 63) ↔ x = 2 ^ 63 := by
  unfold toS64 two64 at *
  split <;> omega

/-- Signed view of a 64-bit pattern equals `-1` exactly for the all-ones
pattern. -/
theorem toS64_eq_neg_one (x : Nat) (hx : x < two64) :
    toS64 x = -1 ↔ x = two64 - 1 := by
  unfold toS64 two64 at *
  split <;> omega

/-- Signed view is negative exactly when the sign bit is set. -/
theorem toS64_neg_iff (x : Nat) (hx : x < two64) :
    toS64 x < 0 ↔ 2 ^ 63 ≤ x := by
  unfold toS64 two64 at *
  split <;> omega

/-- Small state builder used by the concrete evaluations below. -/
def mkState (regs : Nat → Nat) (m : SparseMem) : SimpleArchState :=
  { pc := 0, ireg := regs, cregs := fun _ => none, mem := m }

/-!
Claim C1 — the MUL-group semantics.  The source `ImulDiv::execute`
multiplies at 64 bits before widening to `__int128`, so MULH, MULHSU
and MULHU never see the true high half of the 128-bit product (and the
source's own comments on cases 2 and 3 mis-state the signedness).  The
MUL (low-half) case is correct; MULHU is refuted below.
-/

/-- Claim-side definition (C1's words): MULHU yields the high 64 bits
of the unsigned 128-bit product. -/
def specMulhu (a b : Nat) : Nat := a * b / two64

/-- Register state with rs1 = `2^63` and rs2 = `4`. -/
def c1State : SimpleArchState :=
  mkState (fun n => if n = 1 then 2 ^ 63 else if n = 2 then 4 else 0) ⟨[]⟩

/-- C1 (code bug): executing MULHU (`op = 3`) on rs1 = `2^63`,
rs2 = `4` writes 0 to rd — the 64-bit product wraps to 0 before the
widening shift — while the high 64 bits of the true unsigned product
are 2, as the claim states. -/
theorem c1_mulhu_not_high_product :
    (imulDivExec 3 2 1 3 c1State).map (fun t => getReg t 3) = some 0 ∧
    specMulhu (getReg c1State 1) (getReg c1State 2) = 2 := by
  constructor
  · rfl
  · norm_num [specMulhu, two64, c1State, mkState, getReg]

/-!
Claim C2 — register-register shifts.  The source compares the full
64-bit rs2 value with 63 and never masks to the low six bits, so the
claim's "low 6 bits" rule fails for rs2 = 64.
-/

/-- Claim-side definition (C2's words): the effective amount is the low
six bits of rs2; amounts of 63 (after masking) give 0. -/
def specSllResult (vr1 vr2 : Nat) : Nat :=
  if 63 ≤ vr2 % 64 then 0 else (vr1 <<< (vr2 % 64)) % two64

/-- Register state with rs1 = 1 and rs2 = 64. -/
def c2State : SimpleArchState :=
  mkState (fun n => if n = 1 then 1 else if n = 2 then 64 else 0) ⟨[]⟩

/-- C2 (counterexample): SLL with rs2 = 64 writes 0 to rd, while the
claim's low-six-bit rule would shift by 0 and give rs1 = 1 back. -/
theorem c2_sll_rs2_64_refutes_mask :
    getReg (opRegRegExec 1 false 2 1 3 c2State) 3 = 0 ∧
    specSllResult (getReg c2State 1) (getReg c2State 2) = 1 := by
  constructor
  · rfl
  · norm_num [specSllResult, two64, c2State, mkState, getReg]

/-- C2 (amended): the shifts use the full 64-bit rs2 value, not its low
six bits: amounts below 63 shift by the full value; amounts of 63 or
more give 0 for SLL and SRL and the sign fill (all ones iff rs1's sign
bit is set) for SRA. -/
theorem c2_shift_threshold_full_rs2 (s : SimpleArchState) (r2 r1 rd : Nat)
    (hrd : rd ≠ 0) (h1 : getReg s r1 < two64) :
    (getReg (opRegRegExec 1 false r2 r1 rd s) rd =
      (if getReg s r2 < 63 then (getReg s r1 <<< getReg s r2) % two64
       else 0)) ∧
    (getReg (opRegRegExec 5 false r2 r1 rd s) rd =
      (if getReg s r2 < 63 then getReg s r1 >>> getReg s r2 else 0)) ∧
    (getReg (opRegRegExec 5 true r2 r1 rd s) rd =
      (if getReg s r2 < 63 then
        ofS64 (Int.fdiv (toS64 (getReg s r1)) (2 ^ getReg s r2))
       else if 2 ^ 63 ≤ getReg s r1 then two64 - 1 else 0)) := by
  refine ⟨?_, ?_, ?_⟩
  · simp [opRegRegExec, getReg_incPc, getReg_setReg_self _ _ _ hrd]
  · simp [opRegRegExec, getReg_incPc, getReg_setReg_self _ _ _ hrd]
  · simp only [opRegRegExec, getReg_incPc, getReg_setReg_self _ _ _ hrd,
      if_true]
    by_cases h : getReg s r2 < 63
    · simp [h]
    · have ht := toS64_neg_iff (getReg s r1) h1
      by_cases hs : 2 ^ 63 ≤ getReg s r1
      · have hofs : ofS64 (-1) = two64 - 1 := by decide
        have hs2 : (9223372036854775808 : Nat) ≤ getReg s r1 := by
          norm_num at hs
          exact hs
        simp [h, ht.mpr hs, hofs, hs2]
      · have hneg : ¬ toS64 (getReg s r1) < 0 := fun hn => hs (ht.mp hn)
        have hs2 : ¬ (9223372036854775808 : Nat) ≤ getReg s r1 := by
          norm_num at hs
          omega
        simp [h, hneg, hs2]

/-- C2 (witness): the amended shift rule evaluated at rd = 3,
rs1 holding 1 and rs2 holding 64. -/
theorem c2_shift_threshold_full_rs2_witness :
    ((3 : Nat) ≠ 0 ∧ getReg c2State 1 < two64) ∧
    ((getReg (opRegRegExec 1 false 2 1 3 c2State) 3 =
      (if getReg c2State 2 < 63 then
        (getReg c2State 1 <<< getReg c2State 2) % two64
       else 0)) ∧
    (getReg (opRegRegExec 5 false 2 1 3 c2State) 3 =
      (if getReg c2State 2 < 63 then getReg c2State 1 >>> getReg c2State 2
       else 0)) ∧
    (getReg (opRegRegExec 5 true 2 1 3 c2State) 3 =
      (if getReg c2State 2 < 63 then
        ofS64 (Int.fdiv (toS64 (getReg c2State 1)) (2 ^ getReg c2State 2))
       else if 2 ^ 63 ≤ getReg c2State 1 then two64 - 1 else 0))) :=
  ⟨⟨by decide, by decide⟩,
   c2_shift_threshold_full_rs2 c2State 2 1 3 (by decide) (by decide)⟩

/-!
Claim C3 — AMO word loads into `rd`.  The source writes `init_val` —
the zero-extended value `readMem` returned — into `rd` and carries a
TODO noting that the word versions still need the sign extension the
spec (and the claim) describe.
-/

/-- Claim-side definition (C3's words): the loaded 32-bit word is
sign-extended into `rd`. -/
def sext32spec (w : Nat) : Nat := ofS64 (toS32 w)

/-- Memory holding the word `0x80000000` at address `0x1000`. -/
def c3Mem : SparseMem := ⟨[⟨0x1000, 4, [0, 0, 0, 0x80]⟩]⟩

/-- Register state with rs1 = `0x1000` (the address) and rs2 = 7. -/
def c3State : SimpleArchState :=
  mkState (fun n => if n = 1 then 0x1000 else if n = 2 then 7 else 0) c3Mem

/-- C3 (code bug): AMOADD.W on a word with bit 31 set writes the
zero-extended `0x80000000` into rd — not the sign extension
`0xffffffff80000000` the claim states — while memory correctly receives
`op(tmp, rs2) = 0x80000007`. -/
theorem c3_amoaddw_rd_not_sign_extended :
    getReg (amoExec 0 false 2 1 3 c3State) 3 = 0x80000000 ∧
    readMemS (amoExec 0 false 2 1 3 c3State) 0x1000 4 = 0x80000007 ∧
    sext32spec 0x80000000 = 0xffffffff80000000 := by
  refine ⟨rfl, rfl, by decide⟩

/-!
Claim C4 — divide instructions never abort.  The 64-bit
`ImulDiv::execute` divides with no guard, so a zero divisor (or the
`INT64_MIN / -1` pair) raises the host division trap; only the word
forms in `MulDivW::execute` are guarded.
-/

/-- Register state with rs1 = 10 and rs2 = 0 (zero divisor). -/
def c4State : SimpleArchState :=
  mkState (fun n => if n = 1 then 10 else 0) ⟨[]⟩

/-- C4 (counterexample): executing DIV (`op = 4`) with rs2 = 0 hits the
unguarded host division and aborts instead of completing normally. -/
theorem c4_div_by_zero_traps :
    imulDivExec 4 2 1 3 c4State = none := rfl

/-- Signed view of a 32-bit pattern equals the most negative `int32_t`
value exactly for the pattern `2^31`. -/
theorem toS32_eq_neg_min (x : Nat) :
    toS32 x = -(2 ^ 31) ↔ x % two32 = 2 ^ 31 := by
  unfold toS32 two32
  split <;> omega

/-- Signed view of a 32-bit pattern equals `-1` exactly for the
all-ones 32-bit pattern. -/
theorem toS32_eq_neg_one (x : Nat) :
    toS32 x = -1 ↔ x % two32 = two32 - 1 := by
  unfold toS32 two32
  split <;> omega

/-- C4 (amended): execution of the cited multiply/divide families
completes exactly when it does not reach a host division trap: the
unguarded 64-bit DIV/REM abort on divisor 0 or the `INT64_MIN / -1`
pair and DIVU/REMU on divisor 0; the word forms are guarded against a
zero divisor (DIVW/REMW still abort on the `INT32_MIN / -1` pair of
the truncated operands, DIVUW/REMUW never abort), and a guarded zero
divisor makes the word forms write 0 — the sign-extended initial value
of the result variable — to rd. -/
theorem c4_divide_guards (s : SimpleArchState) (op r2 r1 rd : Nat)
    (h1 : getReg s r1 < two64) (h2 : getReg s r2 < two64) (hop : op < 8) :
    ((imulDivExec op r2 r1 rd s).isSome ↔
      ¬ (((op = 4 ∨ op = 6) ∧
            (getReg s r2 = 0 ∨
              (getReg s r1 = 2 ^ 63 ∧ getReg s r2 = two64 - 1))) ∨
         ((op = 5 ∨ op = 7) ∧ getReg s r2 = 0))) ∧
    ((mulDivWExec op r2 r1 rd s).isSome ↔
      ¬ ((op = 4 ∨ op = 6) ∧ getReg s r2 % two32 ≠ 0 ∧
          getReg s r1 % two32 = 2 ^ 31 ∧
          getReg s r2 % two32 = two32 - 1)) ∧
    (∀ opw : Nat, opw = 4 ∨ opw = 5 ∨ opw = 6 ∨ opw = 7 →
      getReg s r2 % two32 = 0 → rd ≠ 0 →
      (mulDivWExec opw r2 r1 rd s).map (fun t => getReg t rd) = some 0) := by
  refine ⟨?_, ?_, ?_⟩
  · have hmin := toS64_eq_neg_min (getReg s r1) h1
    have hone := toS64_eq_neg_one (getReg s r2) h2
    interval_cases op <;>
      simp [imulDivExec, hmin, hone, and_comm, or_comm] <;> tauto
  · have hmin := toS32_eq_neg_min (getReg s r1 % two32)
    have hone := toS32_eq_neg_one (getReg s r2 % two32)
    rw [Nat.mod_mod] at hmin hone
    norm_num at hmin
    interval_cases op <;>
      simp [mulDivWExec, hmin, hone, and_comm, or_comm] <;>
      first
      | tauto
      | (split_ifs <;> simp_all [two32])
  · intro opw hw hz hrd
    have hofs : ofS64 0 = 0 := by decide
    rcases hw with h | h | h | h <;> subst h <;>
      simp [mulDivWExec, hz, hofs, getReg_incPc, getReg_setReg_self _ _ _ hrd]

/-- C4 (witness): the guard rule evaluated on the zero-divisor state:
DIV does not complete there, word DIV completes, and DIVW writes 0. -/
theorem c4_divide_guards_witness :
    (getReg c4State 1 < two64 ∧ getReg c4State 2 < two64 ∧ (4 : Nat) < 8) ∧
    (((imulDivExec 4 2 1 3 c4State).isSome ↔
      ¬ ((((4 : Nat) = 4 ∨ (4 : Nat) = 6) ∧
            (getReg c4State 2 = 0 ∨
              (getReg c4State 1 = 2 ^ 63 ∧ getReg c4State 2 = two64 - 1))) ∨
         (((4 : Nat) = 5 ∨ (4 : Nat) = 7) ∧ getReg c4State 2 = 0))) ∧
    ((mulDivWExec 4 2 1 3 c4State).isSome ↔
      ¬ (((4 : Nat) = 4 ∨ (4 : Nat) = 6) ∧ getReg c4State 2 % two32 ≠ 0 ∧
          getReg c4State 1 % two32 = 2 ^ 31 ∧
          getReg c4State 2 % two32 = two32 - 1)) ∧
    (∀ opw : Nat, opw = 4 ∨ opw = 5 ∨ opw = 6 ∨ opw = 7 →
      getReg c4State 2 % two32 = 0 → (3 : Nat) ≠ 0 →
      (mulDivWExec opw 2 1 3 c4State).map (fun t => getReg t 3) = some 0)) :=
  ⟨⟨by decide, by decide, by decide⟩,
   c4_divide_guards c4State 4 2 1 3 (by decide) (by decide) (by decide)⟩

/-!
Claim C10 — JALR writes the link value before reading the jump base.
-/

/-- Claim-side formulation of `& ~1`: clear the bottom bit. -/
def specClear1 (n : Nat) : Nat := n - n % 2

/-- Conditional decrement of an odd number is exactly the bottom-bit
clear. -/
theorem clear1_eq (n : Nat) :
    (if n % 2 = 1 then n - 1 else n) = specClear1 n := by
  unfold specClear1
  split <;> omega

/-- Mod-reduction of the left summand does not change the wrapped sum. -/
theorem ofS64_mod_add (a : Nat) (i : Int) :
    ofS64 (((a % two64 : Nat) : Int) + i) = ofS64 ((a : Int) + i) := by
  unfold ofS64 two64
  push_cast
  rw [Int.add_emod, Int.emod_emod_of_dvd _ (dvd_refl _), ← Int.add_emod]

/-- C10: `Jalr::execute` stores `pc + 4` into rd before reading the
base register, so with rd = rs1 (nonzero) the target is formed from the
fresh link value `pc + 4`; with rd ≠ rs1, or rs1 = x0, the target uses
the register's prior value; the bottom bit of the target is cleared and
rd (when nonzero) holds the link value. -/
theorem c10_jalr_link_before_base (s : SimpleArchState) (imm : Int)
    (r1 rd : Nat) :
    (rd = r1 → r1 ≠ 0 →
      (jalrExec imm r1 rd s).pc =
        specClear1 (ofS64 ((s.pc : Int) + 4 + imm))) ∧
    (rd ≠ r1 ∨ r1 = 0 →
      (jalrExec imm r1 rd s).pc =
        specClear1 (ofS64 ((getReg s r1 : Int) + imm))) ∧
    (rd ≠ 0 → getReg (jalrExec imm r1 rd s) rd = (s.pc + 4) % two64) := by
  refine ⟨?_, ?_, ?_⟩
  · intro heq hnz
    subst heq
    simp only [jalrExec, setPc, clear1_eq, getReg_setReg_self _ _ _ hnz]
    rw [ofS64_mod_add]
    norm_num [add_assoc]
  · intro hcase
    rcases hcase with hne | hz
    · simp only [jalrExec, setPc, clear1_eq,
        getReg_setReg_other _ _ _ _ (fun h => hne h.symm)]
    · subst hz
      have : ∀ v, getReg (setReg s rd v) 0 = 0 := fun v => rfl
      simp only [jalrExec, setPc, clear1_eq, this]
      have h0 : getReg s 0 = 0 := rfl
      rw [h0]
  · intro hrd
    simp [jalrExec, setPc, getReg, setReg, hrd]

/-- State with pc = 100 used by the JALR witness. -/
def c10State : SimpleArchState :=
  { pc := 100, ireg := fun _ => 0, cregs := fun _ => none, mem := ⟨[]⟩ }

/-- C10 (witness): JALR with rd = rs1 = 5 from pc = 100 with imm = −3
jumps to 100 (the odd sum 101 with its bottom bit cleared) and links
104. -/
theorem c10_jalr_link_before_base_witness :
    ((5 : Nat) = 5 → (5 : Nat) ≠ 0 →
      (jalrExec (-3) 5 5 c10State).pc =
        specClear1 (ofS64 ((c10State.pc : Int) + 4 + (-3)))) ∧
    ((5 : Nat) ≠ 5 ∨ (5 : Nat) = 0 →
      (jalrExec (-3) 5 5 c10State).pc =
        specClear1 (ofS64 ((getReg c10State 5 : Int) + (-3)))) ∧
    ((5 : Nat) ≠ 0 →
      getReg (jalrExec (-3) 5 5 c10State) 5 = (c10State.pc + 4) % two64) :=
  c10_jalr_link_before_base c10State (-3) 5 5

/-!
Claim C8 — the readlinkat handler, from `HostSystem::readlinkat` in
`src/host_system.cpp`.  Strings are byte lists.
-/

/-- Byte string "/proc/self/exe". -/
def procSelfExe : List Nat :=
  [47, 112, 114, 111, 99, 47, 115, 101, 108, 102, 47, 101, 120, 101]

/-- Path-marshalling loop of `HostSystem::readlinkat`: starting at
guest address `path`, read bytes until a NUL, keeping the printable
ones (a byte above 127 reads back as a negative `char` and is treated
like a control character: flagged and dropped).  The C++ loop is
unbounded; `fuel` bounds the iterations of the embedding and every use
below supplies more fuel than the loop needs at that input.  The `off`
counter is a `uint32_t` in the source; the fuel never reaches that
wrap. -/
def collectPath (s : SimpleArchState) (path : Nat) : Nat → Nat → List Nat
  | _, 0 => []
  | off, fuel + 1 =>
    let pval := readMemS s ((path + off) % two64) 1
    if pval = 0 then []
    else if 32 ≤ pval ∧ pval ≤ 127 then
      pval :: collectPath s path (off + 1) fuel
    else collectPath s path (off + 1) fuel

/-- Guest-buffer copy loop of `HostSystem::readlinkat`: write the
pathname bytes one by one, stopping after `bufSz` bytes; the result is
the final state together with the count of bytes written. -/
def copyOut (buf bufSz : Nat) :
    SimpleArchState → Nat → List Nat → SimpleArchState × Nat
  | s, off, [] => (s, off)
  | s, off, v :: vs =>
    let s2 := writeMemS s ((buf + off) % two64) 1 v
    if off + 1 = bufSz then (s2, off + 1)
    else copyOut buf bufSz s2 (off + 1) vs

/-- Embedding of `HostSystem::readlinkat`.  The `progName` argument
models the `prog_name_` member of `HostSystem`; the source never reads
it here — on the `/proc/self/exe` path it copies the marshalled guest
path string itself into the buffer (its own TODO says the program name
is what should be resolved).  The `dirfd` argument register x10 is only
logged and does not influence the result. -/
def hostReadlinkat (_progName : List Nat) (fuel : Nat)
    (s : SimpleArchState) : SimpleArchState :=
  let path := getReg s 11
  let buf := getReg s 12
  let bufSz := getReg s 13
  if path = 0 ∨ buf = 0 ∨ bufSz = 0 then setReg s 10 (two64 - 1)
  else
    let pathname := collectPath s path 0 fuel
    if pathname ≠ procSelfExe then setReg s 10 0
    else
      let r := copyOut buf bufSz s 0 pathname
      setReg r.1 10 r.2

/-- Guest memory for the readlinkat evaluation: the path string
"/proc/self/exe" with its NUL at `0x100`, and a 64-byte buffer at
`0x200`. -/
def c8Mem : SparseMem :=
  ⟨[⟨0x100, 15, procSelfExe ++ [0]⟩, ⟨0x200, 64, List.replicate 64 0⟩]⟩

/-- Register state for the readlinkat evaluation: path pointer in x11,
buffer pointer in x12, buffer size 64 in x13. -/
def c8State : SimpleArchState :=
  mkState
    (fun n =>
      if n = 11 then 0x100 else if n = 12 then 0x200 else
      if n = 13 then 64 else 0)
    c8Mem

/-- Stored program name "a.out" for the readlinkat evaluation. -/
def c8ProgName : List Nat := [97, 46, 111, 117, 116]

/-- C8 (code bug): asked for `/proc/self/exe` with `prog_name_` being
the five-byte "a.out", the handler returns 14 in x10 and the guest
buffer starts with the byte of the slash — it copied the path string
"/proc/self/exe" itself, not the stored program name the claim (and
the source's own TODO) call for. -/
theorem c8_readlinkat_copies_path_not_progname :
    getReg (hostReadlinkat c8ProgName 32 c8State) 10 = 14 ∧
    readMemS (hostReadlinkat c8ProgName 32 c8State) 0x200 1 = 47 ∧
    c8ProgName.length = 5 ∧ c8ProgName.getD 0 0 = 97 := by
  refine ⟨rfl, rfl, rfl, rfl⟩

/-!
Claim C9 — purity of the decoders.  `InstDesc` records which
instruction class `decode16`/`decode32` construct and with which
constructor arguments; equal descriptors denote identically constructed
instruction objects, whose `disasm()` and `execute()` are functions of
those stored fields alone.  Immediate arguments are kept as the raw bit
patterns the decoder computes (the C++ constructors may reinterpret
them as signed values of a fixed width, an injective reinterpretation).
`none` models the null instruction returned for unrecognized
encodings.
-/

/-- Instruction value produced by the decoders: one constructor per
instruction class of `src/arch_decode.cpp`, carrying the constructor
arguments. -/
inductive InstDesc where
  | load (op imm r1 rd : Nat)
  | loadFp (op imm r1 rd : Nat)
  | opImm (op imm r1 rd : Nat)
  | auipc (imm rd : Nat)
  | addIw (imm r1 rd : Nat)
  | slliw (imm r1 rd : Nat)
  | sraliw (imm r1 rd : Nat) (op30 : Bool)
  | store (sz imm r1 r2 : Nat)
  | storeFp (imm rbase rsrc sz : Nat)
  | lrSc (o27 dword aq rel : Bool) (r2 r1 rd : Nat)
  | amoOp (o31_27 : Nat) (dword aq rel : Bool) (r2 r1 rd : Nat)
  | imulDiv (op r2 r1 rd : Nat)
  | opRegReg (op : Nat) (op30 : Bool) (r2 r1 rd : Nat)
  | lui (imm rd : Nat)
  | mulDivW (op r2 r1 rd : Nat)
  | addSubW (r2 r1 rd : Nat) (op30 : Bool)
  | sllw (r2 r1 rd : Nat)
  | fmadd (dbl : Bool) (rm op2 r3 r2 r1 rd : Nat)
  | fmove (dword toFloat : Bool) (r1 rd : Nat)
  | fcvtInt (dbl toFloat : Bool) (intSz round r1 rd : Nat)
  | fsign (dbl : Bool) (op r2 r1 rd : Nat)
  | branch (imm op r2 r1 : Nat)
  | jalr (imm r1 rd : Nat)
  | jal (imm rd : Nat)
  | ecallOp
  | compAddI4SpN (imm rd : Nat)
  | compFpLd (imm rsp rdp : Nat)
  | compLw (imm rsp rdp : Nat)
  | compLd (imm rsp rdp : Nat)
  | compFsd (imm rbase rsrc : Nat)
  | compSdw (imm rbase rsrc sz : Nat)
  | compAddI (imm rd : Nat)
  | compAddIw (imm rd : Nat)
  | compLI (rd imm : Nat)
  | compAddI16Sp (imm : Nat)
  | compLui (imm rd : Nat)
  | compShiftRight (imm rsd : Nat) (sra : Bool)
  | candi (imm rsd : Nat)
  | compAluW (fn rs2 rsd : Nat)
  | compAlu (fn rs2 rsd : Nat)
  | compJ (imm : Nat)
  | compBz (eq0 : Bool) (imm rs : Nat)
  | compSllI (sft rd : Nat)
  | compLdwSp (imm rd sz : Nat)
  | compJr (rd : Nat)
  | compMv (rs rd : Nat)
  | compJalr (rd : Nat)
  | compAdd (rs rd : Nat)
  | compSdwSp (imm rs sz : Nat)
  deriving Repr

/-- Embedding of `decode32(uint32_t opc)`: dispatch on the major
opcode field `opc[6:2]` (kept unshifted as `opc & 0x7c`, as in the
source) and assemble each format's immediate from its scattered bit
ranges, with the source's pattern-level sign extension. -/
def decode32 (opc : Nat) : Option InstDesc :=
  let group := opc &&& 0x7c
  let rd := (opc >>> 7) &&& 0x1f
  let r1 := (opc >>> 15) &&& 0x1f
  let r2 := (opc >>> 20) &&& 0x1f
  let op := (opc >>> 12) &&& 7
  if group = 0 then -- load
    let imm := (opc >>> 20) &&& 0xfff
    let imm := if imm &&& 0x800 ≠ 0 then imm ||| 0xf000 else imm
    some (.load op imm r1 rd)
  else if group = 4 then -- load FP
    let imm := (opc >>> 20) &&& 0xfff
    let imm := if imm &&& 0x800 ≠ 0 then imm ||| 0xf000 else imm
    some (.loadFp op imm r1 rd)
  else if group = 12 then -- misc MEM
    none
  else if group = 16 then -- op imm
    let imm := (opc >>> 20) &&& 0xfff
    let imm := if imm &&& 0x800 ≠ 0 then imm ||| 0xf000 else imm
    some (.opImm op imm r1 rd)
  else if group = 20 then -- AUIPC
    some (.auipc (opc &&& 0xfffff000) rd)
  else if group = 24 then -- op imm32
    if op = 0 then -- ADDIW
      let imm := (opc >>> 20) &&& 0xfff
      let imm := if imm &&& 0x800 ≠ 0 then imm ||| 0xf000 else imm
      some (.addIw imm r1 rd)
    else if op = 1 then -- SLLIW
      some (.slliw ((opc >>> 20) &&& 0xfff) r1 rd)
    else if op = 5 then -- SR(AL)IW
      some (.sraliw ((opc >>> 20) &&& 0x01f) r1 rd (opc &&& 0x40000000 ≠ 0))
    else none
  else if group = 32 then -- store
    let imm := rd ||| ((opc >>> 20) &&& 0xfe0)
    let imm := if imm &&& 0x800 ≠ 0 then imm ||| 0xf000 else imm
    some (.store op imm r1 r2)
  else if group = 36 then -- store FP
    let imm := rd ||| ((opc >>> 20) &&& 0xfe0)
    let imm := if imm &&& 0x800 ≠ 0 then imm ||| 0xf000 else imm
    some (.storeFp imm r1 r2 (if op = 2 then 4 else 8))
  else if group = 44 then -- AMO (atomics)
    let dword := op = 3
    let o27 := opc &&& 0x08000000 ≠ 0
    let aq := opc &&& 0x04000000 ≠ 0
    let rel := opc &&& 0x02000000 ≠ 0
    if opc &&& 0x10000000 ≠ 0 then
      some (.lrSc o27 dword aq rel r2 r1 rd)
    else
      some (.amoOp ((opc >>> 27) &&& 0x1f) dword aq rel r2 r1 rd)
  else if group = 48 then -- op reg,reg
    if opc &&& 0x2000000 ≠ 0 then
      some (.imulDiv op r2 r1 rd)
    else
      some (.opRegReg op (opc &&& 0x40000000 ≠ 0) r2 r1 rd)
  else if group = 52 then -- LUI
    some (.lui (opc &&& 0xfffff000) rd)
  else if group = 56 then -- op32
    if opc &&& 0x2000000 ≠ 0 then
      some (.mulDivW op r2 r1 rd)
    else if op = 0 then -- ADD+SUB
      some (.addSubW r2 r1 rd (opc &&& 0x40000000 ≠ 0))
    else if op = 1 then -- SLLW
      some (.sllw r2 r1 rd)
    else none
  else if group = 64 ∨ group = 68 ∨ group = 72 ∨ group = 76 then -- FMADD..
    some (.fmadd (opc &&& 0x02000000 ≠ 0) op ((opc >>> 2) &&& 3)
      ((opc >>> 27) &&& 0x1f) r2 r1 rd)
  else if group = 80 then -- fp op
    let op2 := (opc >>> 25) &&& 0xff
    let mask1 := op2 &&& 0x7e
    let mask2 := op2 &&& 0x76
    if mask2 = 0x70 then -- FMV
      some (.fmove (op2 &&& 1 ≠ 0) (op2 &&& 8 ≠ 0) r1 rd)
    else if mask2 = 0x60 then -- FCVT
      some (.fcvtInt (op2 &&& 1 ≠ 0) (op2 &&& 8 ≠ 0) r2 op r1 rd)
    else if mask1 = 0x10 then -- FSGN
      some (.fsign (op2 &&& 1 ≠ 0) op r2 r1 rd)
    else none
  else if group = 96 then -- branch
    let imm := (opc >>> 7) &&& 0x1e
    let imm := imm ||| ((opc >>> 20) &&& 0x7e0)
    let imm := if opc &&& 0x80 ≠ 0 then imm ||| 0x800 else imm
    let imm := if opc &&& 0x80000000 ≠ 0 then imm ||| 0xfffff000 else imm
    some (.branch imm op r2 r1)
  else if group = 100 then -- JALR
    let imm := (opc >>> 20) &&& 0xfff
    let imm := if imm &&& 0x800 ≠ 0 then imm ||| 0xf000 else imm
    some (.jalr imm r1 rd)
  else if group = 108 then -- JAL
    let imm := ((opc >>> 21) &&& 0x3ff) <<< 1
    let imm := imm ||| (((opc >>> 20) &&& 1) <<< 11)
    let imm := imm ||| (((opc >>> 12) &&& 0xff) <<< 12)
    let imm := if (opc >>> 31) &&& 1 = 1 then imm ||| 0xfffffffffff00000 else imm
    some (.jal imm rd)
  else if group = 112 then -- system
    if op = 0 then some .ecallOp else none
  else none

/-- Embedding of `decode16(uint32_t opc)`: dispatch on `opc[1:0]` and
`opc[15:13]` (plus sub-fields) and reshape each compressed immediate. -/
def decode16 (opc : Nat) : Option InstDesc :=
  let o10 := opc &&& 3
  let rd := (opc >>> 7) &&& 0x1f
  let rs := (opc >>> 2) &&& 0x1f
  let rsd := ((opc >>> 7) &&& 7) + 8
  let o15_13 := opc &&& 0xe000
  let r1p := ((opc >>> 7) &&& 7) + 8
  let r2p := ((opc >>> 2) &&& 7) + 8
  if o10 = 0 then -- Memory
    if o15_13 = 0 then -- C.ADDI4SPN
      let rdp := ((opc >>> 2) &&& 7) + 8
      let imm := (opc &&& 0x780) >>> 1
      let imm := imm ||| ((opc &&& 0x1800) >>> 7)
      let imm := imm ||| (if opc &&& 0x40 ≠ 0 then 4 else 0)
      let imm := imm ||| (if opc &&& 0x20 ≠ 0 then 8 else 0)
      some (.compAddI4SpN imm rdp)
    else if o15_13 = 0x2000 then -- C.FLD
      let imm := (opc >>> (10 - 3)) &&& (7 <<< 3)
      let imm := imm ||| ((opc <<< (6 - 5)) &&& (3 <<< 6))
      some (.compFpLd imm r1p r2p)
    else if o15_13 = 0x4000 then -- C.LW
      let imm := (opc >>> (10 - 3)) &&& (7 <<< 3)
      let imm := imm ||| (if opc &&& 0x20 ≠ 0 then 0x40 else 0)
      let imm := imm ||| (if opc &&& 0x40 ≠ 0 then 4 else 0)
      some (.compLw imm (((opc >>> 7) &&& 7) + 8) (((opc >>> 2) &&& 7) + 8))
    else if o15_13 = 0x6000 then -- C.LD
      let imm := (opc >>> (10 - 3)) &&& (7 <<< 3)
      let imm := imm ||| ((opc <<< (6 - 5)) &&& (3 <<< 6))
      some (.compLd imm (((opc >>> 7) &&& 7) + 8) (((opc >>> 2) &&& 7) + 8))
    else if o15_13 = 0xa000 then -- C.FSD
      let imm := (opc >>> (10 - 3)) &&& (7 <<< 3)
      let imm := imm ||| (if opc &&& 0x20 ≠ 0 then 0x40 else 0)
      let imm := imm ||| (if opc &&& 0x40 ≠ 0 then 0x80 else 0)
      some (.compFsd imm r1p r2p)
    else if o15_13 = 0xc000 then -- C.SW
      let imm := (opc >>> (10 - 3)) &&& (7 <<< 3)
      let imm := imm ||| (if opc &&& 0x20 ≠ 0 then 0x40 else 0)
      let imm := imm ||| (if opc &&& 0x40 ≠ 0 then 4 else 0)
      some (.compSdw imm (((opc >>> 7) &&& 7) + 8) (((opc >>> 2) &&& 7) + 8) 4)
    else if o15_13 = 0xe000 then -- C.SD
      let imm := (opc >>> (10 - 3)) &&& (7 <<< 3)
      let imm := imm ||| (if opc &&& 0x20 ≠ 0 then 0x40 else 0)
      let imm := imm ||| (if opc &&& 0x40 ≠ 0 then 0x80 else 0)
      some (.compSdw imm (((opc >>> 7) &&& 7) + 8) (((opc >>> 2) &&& 7) + 8) 8)
    else none
  else if o10 = 1 then -- common compressed ops
    if o15_13 = 0 then -- C.ADDI (and C.NOP)
      let raw := (opc >>> 2) &&& 0x1f
      let raw := if opc &&& 0x1000 ≠ 0 then raw ||| 0xe0 else raw
      some (.compAddI raw rd)
    else if o15_13 = 0x2000 then -- C.ADDIW
      let raw := (opc >>> 2) &&& 0x1f
      let raw := if opc &&& 0x1000 ≠ 0 then raw ||| 0xe0 else raw
      some (.compAddIw raw rd)
    else if o15_13 = 0x4000 then -- C.LI
      let raw := (opc >>> 2) &&& 0x1f
      let raw := if opc &&& 0x1000 ≠ 0 then raw ||| 0xe0 else raw
      some (.compLI rd raw)
    else if o15_13 = 0x6000 then -- C.LUI, C.ADDI16SP
      if rd = 2 then
        let imm := (opc &&& 0x18) <<< 4
        let imm := imm ||| (if opc &&& 0x40 ≠ 0 then 0x10 else 0)
        let imm := imm ||| (if opc &&& 0x20 ≠ 0 then 0x40 else 0)
        let imm := imm ||| (if opc &&& 4 ≠ 0 then 0x20 else 0)
        let imm := if opc &&& 0x1000 ≠ 0 then imm ||| 0xfe00 else imm
        some (.compAddI16Sp imm)
      else
        let imm := (opc &&& 0x7c) <<< 10
        let imm := if opc &&& 0x1000 ≠ 0 then imm ||| 0xfffe0000 else imm
        some (.compLui imm rd)
    else if o15_13 = 0x8000 then
      let op_11_10 := opc &&& 0x0c00
      if op_11_10 = 0 ∨ op_11_10 = 0x0400 then -- C.SRLI / C.SRAI
        let imm := (opc >>> 2) &&& 0x1f
        let imm := if opc &&& 0x1000 ≠ 0 then imm ||| 0x20 else imm
        some (.compShiftRight imm rsd (op_11_10 = 0x0400))
      else if op_11_10 = 0x0800 then -- C.ANDI
        let raw := (opc >>> 2) &&& 0x1f
        let raw := if opc &&& 0x1000 ≠ 0 then raw ||| 0xe0 else raw
        some (.candi raw rsd)
      else -- op_11_10 = 0x0c00: rd op= r2
        let rs2 := ((opc >>> 2) &&& 7) + 8
        let fn := (opc >>> 5) &&& 3
        if opc &&& 0x1000 ≠ 0 then some (.compAluW fn rs2 rsd)
        else some (.compAlu fn rs2 rsd)
    else if o15_13 = 0xa000 then -- C.J
      let imm := (opc &&& 0x600) >>> 1
      let imm := imm ||| (if opc &&& 4 ≠ 0 then 0x020 else 0)
      let imm := imm ||| (if opc &&& 8 ≠ 0 then 0x002 else 0)
      let imm := imm ||| (if opc &&& 0x0010 ≠ 0 then 0x004 else 0)
      let imm := imm ||| (if opc &&& 0x0020 ≠ 0 then 0x008 else 0)
      let imm := imm ||| (if opc &&& 0x0040 ≠ 0 then 0x080 else 0)
      let imm := imm ||| (if opc &&& 0x0080 ≠ 0 then 0x040 else 0)
      let imm := imm ||| (if opc &&& 0x0100 ≠ 0 then 0x400 else 0)
      let imm := imm ||| (if opc &&& 0x0800 ≠ 0 then 0x010 else 0)
      let imm := if opc &&& 0x1000 ≠ 0 then imm ||| 0xf800 else imm
      some (.compJ imm)
    else -- C.BEQZ / C.BNEZ
      let imm := (opc &&& 0x60) <<< 1
      let imm := imm ||| (if opc &&& 4 ≠ 0 then 0x20 else 0)
      let imm := imm ||| (if opc &&& 8 ≠ 0 then 0x02 else 0)
      let imm := imm ||| (if opc &&& 0x0010 ≠ 0 then 0x04 else 0)
      let imm := imm ||| (if opc &&& 0x0400 ≠ 0 then 0x08 else 0)
      let imm := imm ||| (if opc &&& 0x0800 ≠ 0 then 0x10 else 0)
      let imm := if opc &&& 0x1000 ≠ 0 then imm ||| 0xff00 else imm
      some (.compBz (o15_13 = 0xc000) imm (((opc >>> 7) &&& 7) + 8))
  else if o10 = 2 then -- more ops
    let o15_12 := opc &&& 0xf000
    if o15_12 < 0x2000 then -- C.SLLI
      let sft := (opc >>> 2) &&& 0x1f
      let sft := sft ||| ((opc >>> 7) &&& 0x20)
      some (.compSllI sft rd)
    else if o15_12 = 0x4000 ∨ o15_12 = 0x5000 then -- C.LWSP
      let imm := (opc &&& 0xc) <<< 4
      let imm := if opc &&& 0x1000 ≠ 0 then imm ||| 0x20 else imm
      let imm := imm ||| ((opc &&& 0x60) >>> 2)
      some (.compLdwSp imm rd 4)
    else if o15_12 = 0x6000 ∨ o15_12 = 0x7000 then -- C.LDSP
      let imm := (opc &&& 0x1c) <<< 4
      let imm := if opc &&& 0x1000 ≠ 0 then imm ||| 0x20 else imm
      let imm := imm ||| ((opc &&& 0x60) >>> 2)
      some (.compLdwSp imm rd 8)
    else if o15_12 = 0x8000 then -- C.JR and C.MV
      if rs = 0 then some (.compJr rd) else some (.compMv rs rd)
    else if o15_12 = 0x9000 then -- C.EBREAK, C.JALR, C.ADD
      if rd = 0 then none
      else if rs = 0 then some (.compJalr rd)
      else some (.compAdd rs rd)
    else if o15_12 = 0xc000 ∨ o15_12 = 0xd000 then -- C.SWSP
      let imm := (opc >>> 1) &&& 0xc0
      let imm := imm ||| (((opc >>> 9) &&& 0xf) <<< 2)
      some (.compSdwSp imm rs 4)
    else if o15_12 = 0xe000 ∨ o15_12 = 0xf000 then -- C.SDSP
      let imm := (opc >>> 1) &&& 0x1c0
      let imm := imm ||| (((opc >>> 10) &&& 7) <<< 3)
      some (.compSdwSp imm rs 8)
    else none
  else none

/-- Decoder invocation in an arbitrary program state.  Per its source
signature `Inst* decode32(uint32_t)`, the function receives only the
opcode word; its body in `src/arch_decode.cpp` inspects `opc` and
constructs an instruction — it reads no global or architectural state
and performs no I/O — so a call returns the pure decode result and
leaves the program state unchanged. -/
def decode32Call (opc : Nat) (s : SimpleArchState) :
    Option InstDesc × SimpleArchState :=
  (decode32 opc, s)

/-- Decoder invocation for 16-bit opcodes; see `decode32Call`. -/
def decode16Call (opc : Nat) (s : SimpleArchState) :
    Option InstDesc × SimpleArchState :=
  (decode16 opc, s)

/-- C9: the decoders are pure and deterministic: calls on the same
opcode word from any two program states produce the same instruction
value — hence the same disassembly string and execution behavior,
both being functions of the constructed object's fields — and neither
call changes any state. -/
theorem c9_decoders_pure (w : Nat) (s t : SimpleArchState) :
    (decode32Call w s).1 = (decode32Call w t).1 ∧
    (decode32Call w s).2 = s ∧
    (decode16Call w s).1 = (decode16Call w t).1 ∧
    (decode16Call w s).2 = s :=
  ⟨rfl, rfl, rfl, rfl⟩

/-!
Claim C7 — `addBlock` followed by 1-byte reads of the new range.  The
hypotheses are the physical well-formedness the C++ types and the
sparse-memory invariants give: the requested range fits the address
space, existing blocks are in range with buffers of their declared
size, the new range does not overlap any existing block (overlap other
than the exact contiguous growth is left TODO/unspecified by the
source), and the grown size fits the `uint32_t` size field.
-/

/-- Unsigned 64-bit subtraction reduces to plain subtraction when no
wrap occurs. -/
theorem sub64_eq (a b : Nat) (hb : b ≤ a) (ha : a < two64) :
    sub64 a b = a - b := by
  unfold sub64
  rw [Nat.mod_eq_of_lt ha, Nat.mod_eq_of_lt (Nat.lt_of_le_of_lt hb ha)]
  have h : a + two64 - b = (a - b) + two64 := by omega
  rw [h, Nat.add_mod_right, Nat.mod_eq_of_lt (by omega)]

/-- The grow-path copy loop preserves the buffer length. -/
theorem growCopy_length (buf : List Nat) (offset : Nat) (d : List Nat)
    (cnt : Nat) : (growCopy buf offset d cnt).length = buf.length := by
  induction cnt with
  | zero => rfl
  | succ m ih => simp [growCopy, ih]

/-- Cells the grow-path copy loop wrote in bounds hold the copied data
byte. -/
theorem growCopy_getD (buf : List Nat) (offset : Nat) (d : List Nat)
    (cnt k : Nat) (hk : k < cnt) (hlen : offset + k < buf.length) :
    (growCopy buf offset d cnt).getD (offset + k) 0 = d.getD k 0 % 256 := by
  induction cnt with
  | zero => exact absurd hk (Nat.not_lt_zero k)
  | succ m ih =>
    by_cases hkm : k = m
    · subst hkm
      have hl : offset + k < (growCopy buf offset d k).length := by
        rw [growCopy_length]
        exact hlen
      simp [growCopy, List.getD_eq_getElem?_getD, List.getElem?_set_self hl]
    · have hk2 : k < m := by omega
      have hne : offset + m ≠ offset + k := by omega
      have := ih hk2
      simp only [growCopy, List.getD_eq_getElem?_getD,
        List.getElem?_set_ne hne] at this ⊢
      exact this

/-- Core of claim C7: after `addBlock` runs over the block list, the
1-byte read of offset `k` of the new range hits the new or grown block
and returns the stored byte. -/
theorem c7_read_after_add (blocks : List MemBlock) (va n k : Nat)
    (data : Option (List Nat))
    (hk : k < n) (hva : va + n < two64)
    (hwf : ∀ b ∈ blocks, b.va + b.sz < two64 ∧ b.mem.length = b.sz)
    (hdisj : ∀ b ∈ blocks, b.va + b.sz ≤ va ∨ va + n ≤ b.va)
    (hgrow : ∀ b ∈ blocks, b.va + b.sz = va → b.sz + n < two32) :
    readMemGo (va + k) 1 (addBlockGo va n data blocks) =
      (data.getD []).getD k 0 % 256 := by
  induction blocks with
  | nil =>
    have hva1 : va + k < two64 := by omega
    have hend : (va + n) % two64 = va + n := Nat.mod_eq_of_lt hva
    have hacc : (va + k + 1) % two64 = va + k + 1 :=
      Nat.mod_eq_of_lt (by omega)
    have hsub : sub64 (va + k) va = k := by
      have := sub64_eq (va + k) va (Nat.le_add_right va k) hva1
      omega
    simp only [addBlockGo, readMemGo, MemBlock.ofData]
    rw [if_pos]
    · simp only [MemBlock.bytesAt, hsub]
      cases data with
      | none =>
        simp [leVal, List.getD_eq_getElem?_getD, List.getElem?_replicate,
          hk]
      | some d =>
        simp [leVal, List.getD_eq_getElem?_getD, List.getElem?_map,
          List.getElem?_range hk]
    · refine ⟨Nat.le_add_right va k, ?_, ?_⟩
      · simp only [MemBlock.ofData, hend]
        omega
      · simp only [MemBlock.ofData, hend, hacc]
        omega
  | cons b bs ih =>
    obtain ⟨hbr, hblen⟩ := hwf b (List.mem_cons_self b bs)
    have hbend : (b.va + b.sz) % two64 = b.va + b.sz := Nat.mod_eq_of_lt hbr
    by_cases hend : b.va + b.sz = va
    · -- grow path
      have hfit : b.sz + n < two32 := hgrow b (List.mem_cons_self b bs) hend
      have hszT : (n + b.sz) % two32 = n + b.sz :=
        Nat.mod_eq_of_lt (by omega)
      have hbva : b.va ≤ va + k := by omega
      have hva1 : va + k < two64 := by omega
      have hsub : sub64 (va + k) b.va = b.sz + k := by
        have := sub64_eq (va + k) b.va (by omega) hva1
        omega
      have hsubva : sub64 va b.va = b.sz := by
        have := sub64_eq va b.va (by omega) (by omega)
        omega
      have hglen :
          (b.mem.take ((n + b.sz) % two32) ++
            List.replicate ((n + b.sz) % two32 - b.sz) 0).length =
          n + b.sz := by
        rw [hszT, List.take_of_length_le (by omega), List.length_append,
          List.length_replicate, hblen]
        omega
      simp only [addBlockGo, hbend, if_pos hend, readMemGo]
      rw [if_pos]
      · simp only [MemBlock.bytesAt, hsub]
        cases data with
        | none =>
          have hidx : (b.mem.take ((n + b.sz) % two32) ++
              List.replicate ((n + b.sz) % two32 - b.sz) 0)[b.sz + k]?.getD
                0 = 0 := by
            rw [hszT, List.take_of_length_le (by omega)]
            have hge : b.mem.length ≤ b.sz + k := by omega
            rw [List.getElem?_append_right hge, List.getElem?_replicate]
            split <;> rfl
          simp [leVal, hidx]
        | some d =>
          have hcnt : k < (n + b.sz) % two32 := by omega
          have hlen2 : b.sz + k <
              (b.mem.take ((n + b.sz) % two32) ++
                List.replicate ((n + b.sz) % two32 - b.sz) 0).length := by
            rw [hglen]
            omega
          have hgc := growCopy_getD
            (b.mem.take ((n + b.sz) % two32) ++
              List.replicate ((n + b.sz) % two32 - b.sz) 0)
            b.sz d ((n + b.sz) % two32) k hcnt hlen2
          simp only [List.getD_eq_getElem?_getD] at hgc
          simp only [hsubva]
          simp [leVal, hgc]
      · refine ⟨hbva, ?_, ?_⟩
        · have : (b.va + (n + b.sz) % two32) % two64 = va + n := by
            rw [hszT]
            have : b.va + (n + b.sz) = va + n := by omega
            rw [this, Nat.mod_eq_of_lt hva]
          simp only [this]
          omega
        · have h1 : (b.va + (n + b.sz) % two32) % two64 = va + n := by
            rw [hszT]
            have : b.va + (n + b.sz) = va + n := by omega
            rw [this, Nat.mod_eq_of_lt hva]
          have h2 : (va + k + 1) % two64 = va + k + 1 :=
            Nat.mod_eq_of_lt (by omega)
          simp only [h1, h2]
          omega
    · -- no growth here: the request does not extend this block
      have hne : ¬ (b.va + b.sz) % two64 = va := by
        rw [hbend]
        exact hend
      have hmiss : ¬ (b.va ≤ va + k ∧ va + k < (b.va + b.sz) % two64 ∧
          (va + k + 1) % two64 ≤ (b.va + b.sz) % two64) := by
        rw [hbend]
        rcases hdisj b (List.mem_cons_self b bs) with h | h
        · rintro ⟨-, h2, -⟩
          omega
        · rintro ⟨h1, -, -⟩
          omega
      simp only [addBlockGo, if_neg hne, readMemGo, if_neg hmiss]
      exact ih (fun x hx => hwf x (List.mem_cons_of_mem b hx))
        (fun x hx => hdisj x (List.mem_cons_of_mem b hx))
        (fun x hx => hgrow x (List.mem_cons_of_mem b hx))

/-- C7: after `add_block(va, n, data)` and no other writes, every
1-byte read of the new range returns the supplied data byte (0 when
`data` is absent), both when a fresh block is appended and when an
existing block with `b.va + b.sz = va` makes `addBlock` merge the
request by extending that block.  The hypotheses are the sparse-memory
invariants: blocks are in-range with buffers of their declared size,
the new range does not overlap any existing block, and sizes fit the
`uint32_t` field. -/
theorem c7_addBlock_then_read (m : SparseMem) (va n k : Nat)
    (data : Option (List Nat))
    (hk : k < n) (_hn : n < two32) (hva : va + n < two64)
    (hwf : ∀ b ∈ m.blocks, b.va + b.sz < two64 ∧ b.mem.length = b.sz)
    (hdisj : ∀ b ∈ m.blocks, b.va + b.sz ≤ va ∨ va + n ≤ b.va)
    (hgrow : ∀ b ∈ m.blocks, b.va + b.sz = va → b.sz + n < two32)
    (hdata : ∀ x ∈ data.getD [], x < 256) :
    (m.addBlock va n data).readMem (va + k) 1 =
      (data.getD []).getD k 0 := by
  have h := c7_read_after_add m.blocks va n k data hk hva hwf hdisj hgrow
  unfold SparseMem.addBlock SparseMem.readMem
  simp only at h ⊢
  rw [h]
  cases hq : (data.getD [])[k]? with
  | none => simp [List.getD_eq_getElem?_getD, hq]
  | some x =>
    have hx : x ∈ data.getD [] := List.getElem?_mem hq
    simp [List.getD_eq_getElem?_getD, hq, Nat.mod_eq_of_lt (hdata x hx)]

/-- Memory with one block `[0x40, 0x44)` for the C7 witness. -/
def c7Mem : SparseMem := ⟨[⟨0x40, 4, [1, 2, 3, 4]⟩]⟩

/-- C7 (witness): adding two bytes `[7, 9]` at `0x44` merges into the
block ending there, and the 1-byte read of `0x44 + 1` returns 9. -/
theorem c7_addBlock_then_read_witness :
    ((1 : Nat) < 2 ∧ (2 : Nat) < two32 ∧ (0x44 : Nat) + 2 < two64 ∧
      (∀ b ∈ c7Mem.blocks, b.va + b.sz < two64 ∧ b.mem.length = b.sz) ∧
      (∀ b ∈ c7Mem.blocks, b.va + b.sz ≤ 0x44 ∨ 0x44 + 2 ≤ b.va) ∧
      (∀ b ∈ c7Mem.blocks, b.va + b.sz = 0x44 → b.sz + 2 < two32) ∧
      (∀ x ∈ (some [7, 9] : Option (List Nat)).getD [], x < 256)) ∧
    (c7Mem.addBlock 0x44 2 (some [7, 9])).readMem (0x44 + 1) 1 =
      ((some [7, 9] : Option (List Nat)).getD []).getD 1 0 :=
  ⟨⟨by decide, by decide, by decide, by decide, by decide, by decide,
    by decide⟩,
   c7_addBlock_then_read c7Mem 0x44 2 1 (some [7, 9]) (by decide)
     (by decide) (by decide) (by decide) (by decide) (by decide)
     (by decide)⟩

end RvFun
